import Mathlib

/-!
Verification of the planning-poker session core (`worker/src/logic.ts`).

The TypeScript reducer, sanitizer and statistics module are shallowly
embedded here.  JavaScript objects used as string-keyed records become
association lists (`List (String × α)`); JS `undefined`/absent fields
become `Option`; integral JS numbers (unix seconds, durations) become
`Int`; the statistics module's arithmetic is modelled over `ℚ`.
Sources of nondeterminism in the original code (`Date.now()`,
`crypto.getRandomValues`) are threaded as explicit parameters
(`now`, `freshTok`, `freshTaskId`).
-/

namespace PlanningPoker

/-- Association-list lookup: first binding for a key, mirroring a JS
object read `obj[k]`. -/
def lookupA {α : Type} : List (String × α) → String → Option α
  | [], _ => none
  | (k, v) :: rest, key => if k = key then some v else lookupA rest key

/-- Association-list write, mirroring a JS object write `obj[k] = v`:
overwrite in place when the key exists, append otherwise. -/
def setKey {α : Type} : List (String × α) → String → α → List (String × α)
  | [], key, val => [(key, val)]
  | (k, v) :: rest, key, val =>
      if k = key then (k, val) :: rest else (k, v) :: setKey rest key val

/-- Association-list key removal, mirroring JS `delete obj[k]`. -/
def delKey {α : Type} : List (String × α) → String → List (String × α)
  | [], _ => []
  | (k, v) :: rest, key =>
      if k = key then delKey rest key else (k, v) :: delKey rest key

/-- Key membership, mirroring a JS truthiness test `obj[k]` on a record
whose values are objects (hence always truthy when present). -/
def containsKey {α : Type} (l : List (String × α)) (key : String) : Bool :=
  (lookupA l key).isSome

/-- Participant record: `{ role: 'voter' | 'observer' }`. -/
structure Participant where
  role : String
deriving DecidableEq

/-- Task record from `types.ts`. -/
structure Task where
  id : String
  title : String
  description : Option String
  votes : List (String × String)
  finalEstimate : Option String
deriving DecidableEq

/-- Voting round: `{ status: 'idle'|'open'|'closed'|'revealed', endsAt }`. -/
structure VotingState where
  status : String
  endsAt : Option ℚ
deriving DecidableEq

/-- Host record; `hostToken` is an `Option` because `sanitizeSession`
deletes the field for non-host requesters. -/
structure Host where
  name : String
  hostToken : Option String
deriving DecidableEq

/-- The authoritative session state from `types.ts`. -/
structure SessionState where
  sessionId : String
  createdAt : String
  updatedAt : Int
  host : Host
  sessionMode : String
  status : String
  participants : List (String × Participant)
  joinRequests : List (String × Participant)
  tasks : List Task
  activeTaskId : Option String
  voting : VotingState
deriving DecidableEq

/-- The per-kind payload of the `Action` union type. -/
inductive ActionKind where
  | join (name : String) (role : String)
  | approve_join (name : String)
  | reject_join (name : String)
  | add_task (title : String) (description : Option String)
  | select_task (taskId : String)
  | cast_vote (value : String)
  | start_voting (durationSeconds : ℚ)
  | close_voting
  | reveal
  | add_time (seconds : ℚ)
  | clear_votes
  | set_final_estimate (taskId : String) (estimate : String)
  | set_role (name : String) (role : String)
  | kick (name : String)
  | transfer_host (name : String)
  | end_session
deriving DecidableEq

/-- `BaseAction` fields (`actor?`, `hostToken?`) plus the kind payload. -/
structure Action where
  actor : Option String := none
  hostToken : Option String := none
  kind : ActionKind
deriving DecidableEq

/-- The fixed 13-card deck from `logic.ts`. -/
def deckValues : List String :=
  ["0", "1", "2", "3", "5", "8", "13", "21", "34", "55", "89", "?", "☕"]

/-- Whitespace characters removed by JS `String.prototype.trim` (common
ASCII subset; the application's names and titles contain no exotic
whitespace). -/
def isWsCh (c : Char) : Bool :=
  decide (c = ' ' ∨ c = '\t' ∨ c = '\n' ∨ c = '\r' ∨ c = '\x0b' ∨ c = '\x0c')

/-- JS `trim`, at the character level. -/
def jsTrim (s : String) : String :=
  String.mk (((s.toList.dropWhile isWsCh).reverse.dropWhile isWsCh).reverse)

/-- `sanitizeString`: trim, cut to `maxLength`, drop the characters
`<` and `>`.  (JS slices by UTF-16 units; we slice by characters, which
agrees on the inputs this application handles.) -/
def sanitizeString (input : String) (maxLength : Nat) : String :=
  String.mk (((jsTrim input).toList.take maxLength).filter
    (fun c => ¬ (c = '<' ∨ c = '>')))

/-- `isValidName`: nonempty input whose sanitized form has length in
`[1, 50]` (the JS `!name` truthiness test rejects the empty string). -/
def isValidName (name : String) : Bool :=
  if name = "" then false
  else
    decide (1 ≤ (sanitizeString name 50).length ∧ (sanitizeString name 50).length ≤ 50)

/-- `isValidTaskTitle`: same shape with bound 200. -/
def isValidTaskTitle (title : String) : Bool :=
  if title = "" then false
  else
    decide (1 ≤ (sanitizeString title 200).length ∧ (sanitizeString title 200).length ≤ 200)

/-- `requireHost`: `action.hostToken && action.hostToken === session.host.hostToken`
(the empty string is falsy in JS). -/
def requireHost (s : SessionState) (a : Action) : Bool :=
  match a.hostToken with
  | none => false
  | some t => if t = "" then false else decide (s.host.hostToken = some t)

/-- First task with the given id, mirroring `tasks.find(t => t.id === i)`. -/
def findTask : List Task → String → Option Task
  | [], _ => none
  | t :: rest, i => if t.id = i then some t else findTask rest i

/-- Mutate the first task with the given id in place, mirroring the JS
pattern `const t = tasks.find(...); mutate(t)`. -/
def updateFirstTask : List Task → String → (Task → Task) → List Task
  | [], _, _ => []
  | t :: rest, i, f => if t.id = i then f t :: rest else t :: updateFirstTask rest i f

/-- Body of the reducer: the `switch (action.type)` of `applyAction`,
acting on `next`, the clone of the input state whose `updatedAt` has
already been set to `now`. -/
def applyKind (now : Int) (freshTok freshTaskId : String)
    (next : SessionState) (a : Action) : SessionState :=
  match a.kind with
  | .join name role =>
      if ¬ isValidName name then next
      else
        let sn := sanitizeString name 50
        if containsKey next.participants sn then next
        else if 50 ≤ next.participants.length then next
        else if next.sessionMode = "closed" ∧ ¬ requireHost next a then
          { next with joinRequests := setKey next.joinRequests sn ⟨role⟩ }
        else
          { next with participants := setKey next.participants sn ⟨role⟩ }
  | .approve_join name =>
      if requireHost next a then
        match lookupA next.joinRequests name with
        | some req =>
            { next with participants := setKey next.participants name req,
                        joinRequests := delKey next.joinRequests name }
        | none => next
      else next
  | .reject_join name =>
      if requireHost next a then
        { next with joinRequests := delKey next.joinRequests name }
      else next
  | .add_task title description =>
      if ¬ isValidTaskTitle title then next
      else if 100 ≤ next.tasks.length then next
      else if next.sessionMode = "closed" ∧ ¬ requireHost next a then next
      else
        match a.actor with
        | none => next
        | some act =>
            if act = "" then next
            else if ¬ containsKey next.participants act then next
            else
              let t : Task :=
                ⟨freshTaskId, sanitizeString title 200,
                 description.map (fun d => sanitizeString d 500), [], none⟩
              { next with
                  tasks := next.tasks ++ [t],
                  activeTaskId :=
                    if next.activeTaskId = none ∨ next.activeTaskId = some "" then
                      some freshTaskId
                    else next.activeTaskId }
  | .select_task taskId =>
      if requireHost next a then
        if (findTask next.tasks taskId).isSome then
          { next with activeTaskId := some taskId, voting := ⟨"idle", none⟩ }
        else next
      else next
  | .cast_vote value =>
      match next.activeTaskId with
      | none => next
      | some atid =>
          if atid = "" ∨ next.status = "ended" then next
          else if ¬ next.voting.status = "open" then next
          else
            match findTask next.tasks atid with
            | none => next
            | some _ =>
                match a.actor with
                | none => next
                | some act =>
                    if act = "" then next
                    else
                      match lookupA next.participants act with
                      | none => next
                      | some p =>
                          if ¬ p.role = "voter" then next
                          else if ¬ deckValues.contains value then next
                          else
                            { next with
                                tasks := updateFirstTask next.tasks atid
                                  (fun t => { t with votes := setKey t.votes act value }) }
  | .start_voting durationSeconds =>
      if requireHost next a then
        if durationSeconds < 0 ∨ 3600 < durationSeconds then next
        else
          let endsAt : Option ℚ :=
            if durationSeconds = 0 then none else some ((now : ℚ) + durationSeconds)
          let opened := { next with voting := (⟨"open", endsAt⟩ : VotingState) }
          let ensured :=
            if opened.tasks = [] then
              { opened with
                  tasks := [⟨freshTaskId, "New Task", some "", [], none⟩],
                  activeTaskId := some freshTaskId }
            else opened
          match ensured.activeTaskId with
          | none => ensured
          | some atid =>
              { ensured with
                  tasks := updateFirstTask ensured.tasks atid
                    (fun t => { t with votes := [] }) }
      else next
  | .close_voting =>
      if requireHost next a then { next with voting := ⟨"closed", none⟩ } else next
  | .reveal =>
      if requireHost next a then { next with voting := ⟨"revealed", none⟩ } else next
  | .add_time seconds =>
      if requireHost next a then
        if seconds < 10 ∨ 300 < seconds then next
        else if next.voting.status = "open" then
          match next.voting.endsAt with
          | none => next
          | some e =>
              if e = 0 then next
              else { next with voting := ⟨"open", some (e + seconds)⟩ }
        else next
      else next
  | .clear_votes =>
      if requireHost next a then
        let ts :=
          match next.activeTaskId with
          | none => next.tasks
          | some atid =>
              updateFirstTask next.tasks atid (fun t => { t with votes := [] })
        { next with tasks := ts, voting := ⟨"idle", none⟩ }
      else next
  | .set_final_estimate taskId estimate =>
      if requireHost next a then
        if (findTask next.tasks taskId).isSome then
          { next with
              tasks := updateFirstTask next.tasks taskId
                (fun t => { t with finalEstimate := some (sanitizeString estimate 20) }) }
        else next
      else next
  | .set_role name role =>
      if requireHost next a then
        if containsKey next.participants name then
          { next with
              participants := setKey next.participants name ⟨role⟩,
              tasks :=
                if role = "observer" then
                  next.tasks.map (fun t => { t with votes := delKey t.votes name })
                else next.tasks }
        else next
      else next
  | .kick name =>
      if requireHost next a then
        if name = next.host.name then next
        else
          { next with
              participants := delKey next.participants name,
              tasks := next.tasks.map (fun t => { t with votes := delKey t.votes name }),
              joinRequests := delKey next.joinRequests name }
      else next
  | .transfer_host name =>
      if requireHost next a then
        if containsKey next.participants name then
          { next with host := ⟨name, some freshTok⟩ }
        else next
      else next
  | .end_session =>
      if requireHost next a then { next with status := "ended" } else next

/-- The reducer `applyAction` of `logic.ts`: clone the state, stamp
`updatedAt := now`, then dispatch on the action kind.  `now` stands for
`nowSeconds()`, `freshTok` for `generateSecureToken()` and `freshTaskId`
for the `task-...` id minted from `Date.now()`/`Math.random()`. -/
def applyAction (now : Int) (freshTok freshTaskId : String)
    (s : SessionState) (a : Action) : SessionState :=
  applyKind now freshTok freshTaskId { s with updatedAt := now } a

/-- `createInitialSession`; the thrown `Error('Invalid host name')`
becomes `none`. -/
def createInitialSession (sessionId hostName sessionMode : String)
    (freshTok createdAtIso : String) (now : Int) : Option SessionState :=
  if ¬ isValidName hostName then none
  else
    let sn := sanitizeString hostName 50
    some
      { sessionId := sessionId
        createdAt := createdAtIso
        updatedAt := now
        host := ⟨sn, some freshTok⟩
        sessionMode := sessionMode
        status := "active"
        participants := [(sn, ⟨"voter"⟩)]
        joinRequests := []
        tasks := []
        activeTaskId := none
        voting := ⟨"idle", none⟩ }

/-- Numeric value of a digit character. -/
def digitVal (c : Char) : Nat := c.toNat - '0'.toNat

/-- Decimal digit test. -/
def isDigitCh (c : Char) : Bool := decide ('0' ≤ c ∧ c ≤ '9')

/-- Natural number denoted by a digit string. -/
def natOfDigits (cs : List Char) : Nat := cs.foldl (fun n c => 10 * n + digitVal c) 0

/-- Unsigned decimal literal: `digits`, `digits.digits`, `.digits` or
`digits.`. -/
def parseUnsigned (cs : List Char) : Option ℚ :=
  let intPart := cs.takeWhile isDigitCh
  let rest := cs.dropWhile isDigitCh
  match rest with
  | [] => if intPart = [] then none else some (natOfDigits intPart : ℚ)
  | '.' :: fs =>
      let fracPart := fs.takeWhile isDigitCh
      let rest2 := fs.dropWhile isDigitCh
      if ¬ rest2 = [] then none
      else if intPart = [] ∧ fracPart = [] then none
      else some ((natOfDigits intPart : ℚ) +
        (natOfDigits fracPart : ℚ) / ((10 : ℚ) ^ fracPart.length))
  | _ => none

/-- JS `Number(string)` on the strings this application feeds it
(vote values): trimmed empty string is `0`, optionally signed decimal
literals parse, everything else is `NaN` (`none`).  Exotic `Number`
forms (hex, exponent, `Infinity`) do not occur among deck values and
are not modelled. -/
def jsNumber (s : String) : Option ℚ :=
  let t := jsTrim s
  if t = "" then some 0
  else
    match t.toList with
    | '+' :: cs => parseUnsigned cs
    | '-' :: cs => (parseUnsigned cs).map Neg.neg
    | cs => parseUnsigned cs

/-- `Number(x.toFixed(2))`: round to two decimals, ties away from the
smaller value (ECMA toFixed picks the larger candidate on a tie). -/
def toFixed2 (x : ℚ) : ℚ := ((⌊x * 100 + 1 / 2⌋ : Int) : ℚ) / 100

/-- `calculateStats` of `logic.ts` over a vote map.  JS
`sort((a, b) => a - b)` on numbers is modelled by ascending sorting
(`List.insertionSort`, provably a sorted permutation — on numeric values
the ascending arrangement is unique, so any correct sort agrees). -/
def calculateStats (votes : List (String × String)) : Option ℚ × Option ℚ :=
  let numericVotes := (votes.map Prod.snd).filterMap jsNumber
  if numericVotes = [] then (none, none)
  else
    let sum := numericVotes.foldl (· + ·) 0
    let average := toFixed2 (sum / (numericVotes.length : ℚ))
    let sorted := List.insertionSort (· ≤ ·) numericVotes
    let mid := sorted.length / 2
    let median :=
      if sorted.length % 2 = 0 then
        toFixed2 ((sorted.getD (mid - 1) 0 + sorted.getD mid 0) / 2)
      else sorted.getD mid 0
    (some average, some median)

/-- `formatDistribution`: tally of vote values in first-seen order. -/
def formatDistribution (votes : List (String × String)) : List (String × Nat) :=
  votes.foldl
    (fun dist p =>
      match lookupA dist p.2 with
      | some n => setKey dist p.2 (n + 1)
      | none => dist ++ [(p.2, 1)])
    []

/-- `sanitizeSession`: strips the host token unless the requester is the
host or is absent (initial connection), and masks per-task vote values
as `'voted'` unless the task's votes are shown or the entry is the
requester's own. -/
def sanitizeSession (s : SessionState) (clientName : Option String) : SessionState :=
  let isHost := clientName = some s.host.name
  let isRevealed := s.voting.status = "revealed" ∨ s.status = "ended"
  { s with
      host :=
        if ¬ isHost ∧ ¬ clientName = none then { s.host with hostToken := none }
        else s.host,
      tasks := s.tasks.map (fun t =>
        let isTaskActive := s.activeTaskId = some t.id
        let taskHasVotes := ¬ t.votes = []
        let showVotes :=
          isRevealed ∨ (¬ isTaskActive ∧ taskHasVotes) ∨
            (isTaskActive ∧ s.voting.status = "idle" ∧ taskHasVotes)
        { t with
            votes := t.votes.map (fun p =>
              if clientName = some p.1 ∨ showVotes then p else (p.1, "voted")) }) }

/-- The thirteen action kinds whose reducer branch begins with the
`requireHost` gate. -/
def isHostRestricted : ActionKind → Bool
  | .join _ _ => false
  | .approve_join _ => true
  | .reject_join _ => true
  | .add_task _ _ => false
  | .select_task _ => true
  | .cast_vote _ => false
  | .start_voting _ => true
  | .close_voting => true
  | .reveal => true
  | .add_time _ => true
  | .clear_votes => true
  | .set_final_estimate _ _ => true
  | .set_role _ _ => true
  | .kick _ => true
  | .transfer_host _ => true
  | .end_session => true

theorem requireHost_false {s : SessionState} {a : Action}
    (h : a.hostToken = none ∨ ¬ a.hostToken = s.host.hostToken) :
    requireHost s a = false := by
  rcases ha : a.hostToken with _ | t
  · simp [requireHost, ha]
  · have hne : ¬ s.host.hostToken = some t := by
      rcases h with h | h
      · rw [ha] at h; exact absurd h (by simp)
      · rw [ha] at h; exact fun hc => h hc.symm
    simp [requireHost, ha, hne]

theorem hostGate_noop (now : Int) (ftok ftid : String) (s : SessionState) (a : Action)
    (hk : isHostRestricted a.kind = true)
    (hb : a.hostToken = none ∨ ¬ a.hostToken = s.host.hostToken) :
    applyAction now ftok ftid s a = { s with updatedAt := now } := by
  obtain ⟨actor, htok, kind⟩ := a
  have hrh : requireHost { s with updatedAt := now } (Action.mk actor htok kind) = false :=
    requireHost_false hb
  cases kind <;> simp_all [applyAction, applyKind, isHostRestricted]

/-- C1.  For every session state and every host-restricted action kind
(approve_join, reject_join, select_task, start_voting, close_voting,
reveal, add_time, clear_votes, set_final_estimate, set_role, kick,
transfer_host, end_session), applying the action with a `hostToken`
that is absent or not equal to the state's current host secret returns
a state identical to the input in every field except `updatedAt`,
which is set to the current timestamp. -/
theorem C1_bad_auth_is_noop (now : Int) (ftok ftid : String) (s : SessionState)
    (a : Action) (hk : isHostRestricted a.kind = true)
    (hb : a.hostToken = none ∨ ¬ a.hostToken = s.host.hostToken) :
    applyAction now ftok ftid s a = { s with updatedAt := now } :=
  hostGate_noop now ftok ftid s a hk hb

/-- Example session used to instantiate hypotheses of the theorems. -/
def exS : SessionState :=
  { sessionId := "s1"
    createdAt := "2026-01-01T00:00:00Z"
    updatedAt := 100
    host := ⟨"Hana", some "tok"⟩
    sessionMode := "open"
    status := "active"
    participants := [("Hana", ⟨"voter"⟩), ("Ben", ⟨"voter"⟩)]
    joinRequests := []
    tasks := [⟨"t1", "Task", none, [("Hana", "5"), ("Ben", "8")], none⟩]
    activeTaskId := some "t1"
    voting := ⟨"open", none⟩ }

/-- Witness for C1: a `kick` carrying a wrong token leaves the example
session unchanged apart from `updatedAt`. -/
theorem C1_witness :
    isHostRestricted (Action.mk none (some "bad") (ActionKind.kick "Ben")).kind = true ∧
    ((Action.mk none (some "bad") (ActionKind.kick "Ben")).hostToken = none ∨
      ¬ (Action.mk none (some "bad") (ActionKind.kick "Ben")).hostToken = exS.host.hostToken) ∧
    applyAction 200 "f" "t" exS (Action.mk none (some "bad") (ActionKind.kick "Ben")) =
      { exS with updatedAt := 200 } :=
  ⟨by decide, by decide,
    C1_bad_auth_is_noop 200 "f" "t" exS (Action.mk none (some "bad") (ActionKind.kick "Ben"))
      (by decide) (by decide)⟩

/-- C2.  A `cast_vote` changes something other than `updatedAt` exactly
when the round status is `open`, an active task exists (a non-empty
`activeTaskId` naming a present task), the room is not ended, the actor
is a current participant with role `voter`, and the value is one of the
13 deck tokens; then it sets or overwrites that actor's entry in the
active task's vote map, and in every other combination the state is
unchanged except `updatedAt`.  (An empty actor name is treated as
absent, matching the JS truthiness test on `action.actor`.) -/
theorem C2_cast_vote_gating (now : Int) (ftok ftid : String) (s : SessionState)
    (actor htok : Option String) (v : String) :
    (∀ atid n, s.activeTaskId = some atid → ¬ atid = "" → ¬ s.status = "ended" →
        s.voting.status = "open" → (findTask s.tasks atid).isSome = true →
        actor = some n → ¬ n = "" → lookupA s.participants n = some ⟨"voter"⟩ →
        deckValues.contains v = true →
        applyAction now ftok ftid s (Action.mk actor htok (ActionKind.cast_vote v)) =
          { s with updatedAt := now,
                   tasks := updateFirstTask s.tasks atid
                     (fun t => { t with votes := setKey t.votes n v }) }) ∧
    ((¬ ∃ atid n, s.activeTaskId = some atid ∧ ¬ atid = "" ∧ ¬ s.status = "ended" ∧
        s.voting.status = "open" ∧ (findTask s.tasks atid).isSome = true ∧
        actor = some n ∧ ¬ n = "" ∧ lookupA s.participants n = some ⟨"voter"⟩ ∧
        deckValues.contains v = true) →
      applyAction now ftok ftid s (Action.mk actor htok (ActionKind.cast_vote v)) =
        { s with updatedAt := now }) := by
  constructor
  · rintro atid n hA hA0 hEnd hOpen hF rfl hn hP hV
    obtain ⟨t0, ht0⟩ := Option.isSome_iff_exists.mp hF
    have hV2 : v ∈ deckValues := by simpa using hV
    simp [applyAction, applyKind, hA, hA0, hEnd, hOpen, ht0, hn, hP, hV2]
  · intro hno
    rcases hA : s.activeTaskId with _ | atid
    · simp [applyAction, applyKind, hA]
    by_cases hA0 : atid = ""
    · simp [applyAction, applyKind, hA, hA0]
    by_cases hEnd : s.status = "ended"
    · simp [applyAction, applyKind, hA, hEnd]
    by_cases hOpen : s.voting.status = "open"
    · rcases hF : findTask s.tasks atid with _ | t0
      · simp [applyAction, applyKind, hA, hA0, hEnd, hOpen, hF]
      · rcases hAct : actor with _ | n
        · simp [applyAction, applyKind, hA, hA0, hEnd, hOpen, hF]
        · by_cases hn : n = ""
          · simp [applyAction, applyKind, hA, hA0, hEnd, hOpen, hF, hn]
          · rcases hP : lookupA s.participants n with _ | p
            · simp [applyAction, applyKind, hA, hA0, hEnd, hOpen, hF, hn, hP]
            · by_cases hRole : p.role = "voter"
              · by_cases hV : deckValues.contains v = true
                · exfalso
                  apply hno
                  refine ⟨atid, n, hA, hA0, hEnd, hOpen, by simp [hF], hAct, hn, ?_, hV⟩
                  cases p
                  simp only at hRole
                  rw [hP, hRole]
                · have hV3 : v ∉ deckValues := by simpa using hV
                  simp [applyAction, applyKind, hA, hA0, hEnd, hOpen, hF, hAct, hn, hP, hRole, hV3]
              · simp [applyAction, applyKind, hA, hA0, hEnd, hOpen, hF, hn, hP, hRole]
    · simp [applyAction, applyKind, hA, hA0, hEnd, hOpen]

/-- Witness for C2: on the example session, Ben may cast "13"; the
off-deck value "4" is absorbed as a pure retimestamp. -/
theorem C2_witness :
    applyAction 300 "f" "t" exS (Action.mk (some "Ben") none (ActionKind.cast_vote "13")) =
      { exS with updatedAt := 300,
                 tasks := updateFirstTask exS.tasks "t1"
                   (fun t => { t with votes := setKey t.votes "Ben" "13" }) } ∧
    applyAction 300 "f" "t" exS (Action.mk (some "Ben") none (ActionKind.cast_vote "4")) =
      { exS with updatedAt := 300 } := by
  constructor
  · exact (C2_cast_vote_gating 300 "f" "t" exS (some "Ben") none "13").1 "t1" "Ben"
      (by decide) (by decide) (by decide) (by decide) (by decide) rfl
      (by decide) (by decide) (by decide)
  · refine (C2_cast_vote_gating 300 "f" "t" exS (some "Ben") none "4").2 ?_
    rintro ⟨atid, n, -, -, -, -, -, -, -, -, hV⟩
    exact absurd hV (by decide)

theorem lookupA_setKey_self {α : Type} (l : List (String × α)) (k : String) (v : α) :
    lookupA (setKey l k v) k = some v := by
  induction l with
  | nil => simp [setKey, lookupA]
  | cons p rest ih =>
      obtain ⟨k1, v1⟩ := p
      by_cases h : k1 = k
      · simp [setKey, h, lookupA]
      · simp [setKey, h, lookupA, ih]

theorem lookupA_setKey_ne {α : Type} (l : List (String × α)) (k k2 : String) (v : α)
    (h : ¬ k2 = k) : lookupA (setKey l k v) k2 = lookupA l k2 := by
  have h2 : ¬ k = k2 := fun he => h he.symm
  induction l with
  | nil => simp [setKey, lookupA, h2]
  | cons p rest ih =>
      obtain ⟨k1, v1⟩ := p
      by_cases h1 : k1 = k
      · have hk12 : ¬ k1 = k2 := by rw [h1]; exact h2
        simp [setKey, h1, lookupA, hk12, h2]
      · by_cases hk12 : k1 = k2
        · simp [setKey, h1, lookupA, hk12, h, h2]
        · simp [setKey, h1, lookupA, hk12, ih]

theorem lookupA_delKey_ne {α : Type} (l : List (String × α)) (k k2 : String)
    (h : ¬ k2 = k) : lookupA (delKey l k) k2 = lookupA l k2 := by
  induction l with
  | nil => simp [delKey, lookupA]
  | cons p rest ih =>
      obtain ⟨k1, v1⟩ := p
      by_cases h1 : k1 = k
      · have hk12 : ¬ k1 = k2 := by rw [h1]; exact fun he => h he.symm
        have h2 : ¬ k = k2 := fun he => h he.symm
        simp [delKey, h1, lookupA, hk12, h2, ih]
      · by_cases hk12 : k1 = k2
        · simp [delKey, h1, lookupA, hk12, h]
        · simp [delKey, h1, lookupA, hk12, ih]

theorem containsKey_setKey {α : Type} (l : List (String × α)) (k k2 : String) (v : α)
    (h : containsKey l k2 = true) : containsKey (setKey l k v) k2 = true := by
  by_cases hk : k2 = k
  · subst hk
    simp [containsKey, lookupA_setKey_self]
  · simpa [containsKey, lookupA_setKey_ne l k k2 v hk] using h

/-- C4 fails on the code: `sanitizeSession` keeps the host token when
the requester is absent (initial connection), even though an absent
requester does not equal the host's name. -/
theorem C4_counterexample :
    (sanitizeSession exS none).host.hostToken = some "tok" ∧
    ¬ (none : Option String) = some exS.host.name := by
  constructor
  · rfl
  · simp

/-- C4 amended.  The sanitizer's projection contains the host secret iff
the requester is absent (`undefined`, the initial-connection send) or
equals the host's name; only a present requester name different from the
host's strips it. -/
theorem C4_amended_host_token_visibility (s : SessionState) (r : Option String) :
    (sanitizeSession s r).host.hostToken =
      if r = none ∨ r = some s.host.name then s.host.hostToken else none := by
  by_cases h1 : r = some s.host.name
  · simp [sanitizeSession, h1]
  · by_cases h2 : r = none
    · simp [sanitizeSession, h1, h2]
    · simp [sanitizeSession, h1, h2]

/-- Closed-mode variant of the example session. -/
def exS5 : SessionState := { exS with sessionMode := "closed" }

/-- C5 fails on the code as stated: in a closed room, a join whose name
sanitizes to the empty string (here `"<>"`) is rejected by `isValidName`
before the closed-room branch, so the sanitized name is not already a
participant and yet nothing is recorded in `joinRequests`. -/
theorem C5_counterexample :
    exS5.sessionMode = "closed" ∧
    requireHost exS5 (Action.mk none none (ActionKind.join "<>" "voter")) = false ∧
    containsKey exS5.participants (sanitizeString "<>" 50) = false ∧
    (applyAction 300 "f" "t" exS5
        (Action.mk none none (ActionKind.join "<>" "voter"))).joinRequests = [] := by
  refine ⟨rfl, rfl, by decide, by decide⟩

theorem joinKind_closed (now : Int) (ftok ftid : String) (t : SessionState)
    (actor htok : Option String) (name role : String)
    (hMode : t.sessionMode = "closed")
    (hTok : requireHost t (Action.mk actor htok (ActionKind.join name role)) = false) :
    (applyKind now ftok ftid t
        (Action.mk actor htok (ActionKind.join name role))).participants = t.participants ∧
    (isValidName name = true →
      containsKey t.participants (sanitizeString name 50) = false →
      t.participants.length < 50 →
      (applyKind now ftok ftid t
          (Action.mk actor htok (ActionKind.join name role))).joinRequests =
        setKey t.joinRequests (sanitizeString name 50) ⟨role⟩) := by
  constructor
  · by_cases hv : isValidName name = true
    · by_cases hc : containsKey t.participants (sanitizeString name 50) = true
      · simp [applyKind, hv, hc]
      · by_cases hl : 50 ≤ t.participants.length
        · simp [applyKind, hv, hc, hl]
        · simp [applyKind, hv, hc, hl, hMode, hTok]
    · simp [applyKind, hv]
  · intro hv hc hl
    have hl2 : ¬ 50 ≤ t.participants.length := by omega
    simp [applyKind, hv, hc, hl2, hMode, hTok]

/-- C5 amended.  In a `closed` room, a `join` without a valid host token
never extends `participants`; and when the name is valid, its sanitized
form is not already a participant, and fewer than 50 participants exist,
the sanitized name is recorded in `joinRequests` with the requested
role. -/
theorem C5_amended_closed_join (now : Int) (ftok ftid : String) (s : SessionState)
    (actor htok : Option String) (name role : String)
    (hMode : s.sessionMode = "closed")
    (hTok : requireHost s (Action.mk actor htok (ActionKind.join name role)) = false) :
    (applyAction now ftok ftid s
        (Action.mk actor htok (ActionKind.join name role))).participants = s.participants ∧
    (isValidName name = true →
      containsKey s.participants (sanitizeString name 50) = false →
      s.participants.length < 50 →
      (applyAction now ftok ftid s
          (Action.mk actor htok (ActionKind.join name role))).joinRequests =
        setKey s.joinRequests (sanitizeString name 50) ⟨role⟩) :=
  joinKind_closed now ftok ftid { s with updatedAt := now } actor htok name role hMode hTok

/-- Witness for the amended C5: a valid fresh name in the closed example
room lands in `joinRequests`, with `participants` untouched. -/
theorem C5_amended_witness :
    (applyAction 300 "f" "t" exS5
        (Action.mk none none (ActionKind.join "Cara" "voter"))).participants =
      exS5.participants ∧
    (applyAction 300 "f" "t" exS5
        (Action.mk none none (ActionKind.join "Cara" "voter"))).joinRequests =
      setKey exS5.joinRequests (sanitizeString "Cara" 50) ⟨"voter"⟩ := by
  have h := C5_amended_closed_join 300 "f" "t" exS5 none none "Cara" "voter" rfl rfl
  exact ⟨h.1, h.2 (by decide) (by decide) (by decide)⟩

theorem startVotingKind (now : Int) (ftok ftid : String) (t : SessionState)
    (actor htok : Option String) (d : ℚ)
    (hTok : requireHost t (Action.mk actor htok (ActionKind.start_voting d)) = true) :
    ((d < 0 ∨ 3600 < d) →
      applyKind now ftok ftid t (Action.mk actor htok (ActionKind.start_voting d)) = t) ∧
    (d = 0 →
      (applyKind now ftok ftid t
        (Action.mk actor htok (ActionKind.start_voting d))).voting = ⟨"open", none⟩) ∧
    (0 < d → d ≤ 3600 →
      (applyKind now ftok ftid t
        (Action.mk actor htok (ActionKind.start_voting d))).voting =
          ⟨"open", some ((now : ℚ) + d)⟩) ∧
    (0 ≤ d → d ≤ 3600 → t.tasks = [] →
      (applyKind now ftok ftid t
          (Action.mk actor htok (ActionKind.start_voting d))).tasks =
        [⟨ftid, "New Task", some "", [], none⟩] ∧
      (applyKind now ftok ftid t
          (Action.mk actor htok (ActionKind.start_voting d))).activeTaskId = some ftid) ∧
    (0 ≤ d → d ≤ 3600 → ¬ t.tasks = [] →
      (applyKind now ftok ftid t
          (Action.mk actor htok (ActionKind.start_voting d))).activeTaskId = t.activeTaskId ∧
      (applyKind now ftok ftid t
          (Action.mk actor htok (ActionKind.start_voting d))).tasks =
        (match t.activeTaskId with
         | none => t.tasks
         | some atid => updateFirstTask t.tasks atid (fun tk => { tk with votes := [] }))) := by
  refine ⟨?_, ?_, ?_, ?_, ?_⟩
  · intro hbad
    simp [applyKind, hTok, hbad]
  · intro h0
    subst h0
    have h36 : ¬ (3600 : ℚ) < 0 := by norm_num
    by_cases he : t.tasks = []
    · simp [applyKind, hTok, h36, he, updateFirstTask]
    · rcases hat : t.activeTaskId with _ | atid <;>
        simp [applyKind, hTok, h36, he, hat]
  · intro h1 h2
    have hbad : ¬ (d < 0 ∨ 3600 < d) := by push_neg; constructor <;> linarith
    have h0 : ¬ d = 0 := ne_of_gt h1
    by_cases he : t.tasks = []
    · simp [applyKind, hTok, hbad, h0, he, updateFirstTask]
    · rcases hat : t.activeTaskId with _ | atid <;>
        simp [applyKind, hTok, hbad, h0, he, hat]
  · intro h1 h2 he
    have hbad : ¬ (d < 0 ∨ 3600 < d) := by push_neg; constructor <;> linarith
    simp [applyKind, hTok, hbad, he, updateFirstTask]
  · intro h1 h2 he
    have hbad : ¬ (d < 0 ∨ 3600 < d) := by push_neg; constructor <;> linarith
    rcases hat : t.activeTaskId with _ | atid <;>
      simp [applyKind, hTok, hbad, he, hat]

/-- Idle-round variant of the example session. -/
def exS6 : SessionState := { exS with voting := ⟨"idle", none⟩ }

/-- C6 fails on the code: `durationSeconds` is a client-supplied JS
number, and the fractional duration 1/2 — which is neither 0 nor in
`[1, 3600]`, so the claim predicts a no-op — passes the code's
`0 ≤ d ≤ 3600` check and opens the round with expiry `now + 1/2`. -/
theorem C6_counterexample :
    (applyAction 300 "f" "t9" exS6
        (Action.mk none (some "tok") (ActionKind.start_voting (1 / 2)))).voting =
      ⟨"open", some (((300 : Int) : ℚ) + 1 / 2)⟩ ∧
    exS6.voting.status = "idle" ∧
    ¬ ((1 / 2 : ℚ) = 0 ∨ (1 ≤ (1 / 2 : ℚ) ∧ (1 / 2 : ℚ) ≤ 3600)) := by
  refine ⟨?_, rfl, by norm_num⟩
  exact (startVotingKind 300 "f" "t9" { exS6 with updatedAt := 300 } none (some "tok")
    (1 / 2) (by decide)).2.2.1 (by norm_num) (by norm_num)

/-- C6 amended.  With a valid host token, `start_voting` with duration 0
opens the round with no expiry, a (possibly fractional) duration in
`(0, 3600]` opens it expiring at `now + duration`, and a duration below
0 or above 3600 leaves the state unchanged except `updatedAt`; when the
action takes effect and the task list is empty, a default task is
synthesized and made active, and the active task's votes are
cleared. -/
theorem C6_amended_start_voting (now : Int) (ftok ftid : String) (s : SessionState)
    (actor htok : Option String) (d : ℚ)
    (hTok : requireHost s (Action.mk actor htok (ActionKind.start_voting d)) = true) :
    ((d < 0 ∨ 3600 < d) →
      applyAction now ftok ftid s (Action.mk actor htok (ActionKind.start_voting d)) =
        { s with updatedAt := now }) ∧
    (d = 0 →
      (applyAction now ftok ftid s
        (Action.mk actor htok (ActionKind.start_voting d))).voting = ⟨"open", none⟩) ∧
    (0 < d → d ≤ 3600 →
      (applyAction now ftok ftid s
        (Action.mk actor htok (ActionKind.start_voting d))).voting =
          ⟨"open", some ((now : ℚ) + d)⟩) ∧
    (0 ≤ d → d ≤ 3600 → s.tasks = [] →
      (applyAction now ftok ftid s
          (Action.mk actor htok (ActionKind.start_voting d))).tasks =
        [⟨ftid, "New Task", some "", [], none⟩] ∧
      (applyAction now ftok ftid s
          (Action.mk actor htok (ActionKind.start_voting d))).activeTaskId = some ftid) ∧
    (0 ≤ d → d ≤ 3600 → ¬ s.tasks = [] →
      (applyAction now ftok ftid s
          (Action.mk actor htok (ActionKind.start_voting d))).activeTaskId = s.activeTaskId ∧
      (applyAction now ftok ftid s
          (Action.mk actor htok (ActionKind.start_voting d))).tasks =
        (match s.activeTaskId with
         | none => s.tasks
         | some atid => updateFirstTask s.tasks atid (fun tk => { tk with votes := [] }))) :=
  startVotingKind now ftok ftid { s with updatedAt := now } actor htok d hTok

/-- Witness for the amended C6 on the example session: duration 5000 is
a pure retimestamp, duration 0 opens without expiry, duration 60 opens
with expiry `now + 60` and clears the active task votes, and the
fractional duration 1/2 opens with expiry `now + 1/2`. -/
theorem C6_amended_witness :
    applyAction 300 "f" "t9" exS (Action.mk none (some "tok") (ActionKind.start_voting 5000)) =
      { exS with updatedAt := 300 } ∧
    (applyAction 300 "f" "t9" exS
      (Action.mk none (some "tok") (ActionKind.start_voting 0))).voting = ⟨"open", none⟩ ∧
    (applyAction 300 "f" "t9" exS
      (Action.mk none (some "tok") (ActionKind.start_voting 60))).voting =
        ⟨"open", some (((300 : Int) : ℚ) + 60)⟩ ∧
    (applyAction 300 "f" "t9" exS
      (Action.mk none (some "tok") (ActionKind.start_voting (1 / 2)))).voting =
        ⟨"open", some (((300 : Int) : ℚ) + 1 / 2)⟩ ∧
    (applyAction 300 "f" "t9" exS
      (Action.mk none (some "tok") (ActionKind.start_voting 60))).tasks =
        updateFirstTask exS.tasks "t1" (fun tk => { tk with votes := [] }) := by
  refine ⟨?_, ?_, ?_, ?_, ?_⟩
  · exact (C6_amended_start_voting 300 "f" "t9" exS none (some "tok") 5000 (by decide)).1
      (Or.inr (by norm_num))
  · exact (C6_amended_start_voting 300 "f" "t9" exS none (some "tok") 0 (by decide)).2.1 rfl
  · exact (C6_amended_start_voting 300 "f" "t9" exS none (some "tok") 60 (by decide)).2.2.1
      (by norm_num) (by norm_num)
  · exact (C6_amended_start_voting 300 "f" "t9" exS none (some "tok") (1 / 2)
      (by decide)).2.2.1 (by norm_num) (by norm_num)
  · exact ((C6_amended_start_voting 300 "f" "t9" exS none (some "tok") 60 (by decide)).2.2.2.2
      (by norm_num) (by norm_num) (by decide)).2

theorem transferHostKind (now : Int) (ftok ftid : String) (t : SessionState)
    (actor htok : Option String) (x : String)
    (hTok : requireHost t (Action.mk actor htok (ActionKind.transfer_host x)) = true)
    (hx : containsKey t.participants x = true) :
    applyKind now ftok ftid t (Action.mk actor htok (ActionKind.transfer_host x)) =
      { t with host := ⟨x, some ftok⟩ } := by
  simp [applyKind, hTok, hx]

/-- C8.  With the current host token and a target X who is a current
participant, `transfer_host` makes X the host with the freshly generated
token; provided the fresh token differs from the previous secret (the
256-bit generator never repeats it) and is nonempty, every
host-restricted action carrying the old token is thereafter a no-op
beyond `updatedAt`, while the new token passes the host gate. -/
theorem C8_transfer_host_rotation (now now2 : Int) (ftok ftid ftok2 ftid2 : String)
    (s s2 : SessionState) (actor htok : Option String) (x : String)
    (hTok : requireHost s (Action.mk actor htok (ActionKind.transfer_host x)) = true)
    (hx : containsKey s.participants x = true)
    (hfreshNe : ¬ some ftok = s.host.hostToken) (hfresh0 : ¬ ftok = "")
    (hs2 : s2 = applyAction now ftok ftid s (Action.mk actor htok (ActionKind.transfer_host x))) :
    s2.host = ⟨x, some ftok⟩ ∧
    (∀ a : Action, isHostRestricted a.kind = true → a.hostToken = s.host.hostToken →
      applyAction now2 ftok2 ftid2 s2 a = { s2 with updatedAt := now2 }) ∧
    (∀ a : Action, a.hostToken = some ftok → requireHost s2 a = true) := by
  have hstep : applyAction now ftok ftid s (Action.mk actor htok (ActionKind.transfer_host x)) =
      { s with updatedAt := now, host := ⟨x, some ftok⟩ } :=
    transferHostKind now ftok ftid { s with updatedAt := now } actor htok x hTok hx
  subst hs2
  rw [hstep]
  refine ⟨rfl, ?_, ?_⟩
  · intro a hk hold
    apply hostGate_noop
    · exact hk
    · rcases hOld : a.hostToken with _ | told
      · exact Or.inl rfl
      · right
        intro hc
        have hc2 : told = ftok := by simpa using hc
        rw [hOld] at hold
        exact hfreshNe (hc2 ▸ hold)
  · intro a hNew
    simp [requireHost, hNew, hfresh0]

/-- The example session after transferring host authority to Ben. -/
def exS8 : SessionState :=
  applyAction 300 "newtok" "t" exS (Action.mk none (some "tok") (ActionKind.transfer_host "Ben"))

/-- Witness for C8: after the transfer, Ben holds the fresh token, an
`end_session` carrying the old token is absorbed, and the fresh token
passes the host gate. -/
theorem C8_witness :
    exS8.host = ⟨"Ben", some "newtok"⟩ ∧
    applyAction 400 "g" "u" exS8 (Action.mk none (some "tok") ActionKind.end_session) =
      { exS8 with updatedAt := 400 } ∧
    requireHost exS8 (Action.mk none (some "newtok") ActionKind.end_session) = true := by
  have h := C8_transfer_host_rotation 300 400 "newtok" "t" "g" "u" exS exS8 none
    (some "tok") "Ben" (by decide) (by decide) (by decide) (by decide) rfl
  exact ⟨h.1, h.2.1 (Action.mk none (some "tok") ActionKind.end_session) (by decide) rfl,
    h.2.2 (Action.mk none (some "newtok") ActionKind.end_session) rfl⟩

theorem joinKind_adds (now : Int) (ftok ftid : String) (t : SessionState)
    (actor htok : Option String) (name role : String)
    (hMode : ¬ t.sessionMode = "closed")
    (hv : isValidName name = true)
    (hc : containsKey t.participants (sanitizeString name 50) = false)
    (hl : t.participants.length < 50) :
    (applyKind now ftok ftid t (Action.mk actor htok (ActionKind.join name role))).participants =
      setKey t.participants (sanitizeString name 50) ⟨role⟩ := by
  have hl2 : ¬ 50 ≤ t.participants.length := by omega
  simp [applyKind, hv, hc, hl2, hMode]

/-- C10.  Only `cast_vote` is gated on the room's lifecycle status: in a
state with status `ended`, a `join` with a fresh valid name in an open,
non-full room still adds that name to `participants`, and a
`start_voting` with the current host token and an in-bounds duration
still sets the voting round to `open`. -/
theorem C10_ended_not_frozen :
    (∀ (now : Int) (ftok ftid : String) (s : SessionState) (actor htok : Option String)
        (name role : String),
      s.status = "ended" → s.sessionMode = "open" → isValidName name = true →
      containsKey s.participants (sanitizeString name 50) = false →
      s.participants.length < 50 →
      (applyAction now ftok ftid s
          (Action.mk actor htok (ActionKind.join name role))).participants =
        setKey s.participants (sanitizeString name 50) ⟨role⟩) ∧
    (∀ (now : Int) (ftok ftid : String) (s : SessionState) (actor htok : Option String)
        (d : ℚ),
      s.status = "ended" →
      requireHost s (Action.mk actor htok (ActionKind.start_voting d)) = true →
      0 ≤ d → d ≤ 3600 →
      (applyAction now ftok ftid s
          (Action.mk actor htok (ActionKind.start_voting d))).voting.status = "open") := by
  constructor
  · intro now ftok ftid s actor htok name role hEnd hOpen hv hc hl
    have hne : ¬ s.sessionMode = "closed" := by rw [hOpen]; decide
    exact joinKind_adds now ftok ftid { s with updatedAt := now } actor htok name role
      hne hv hc hl
  · intro now ftok ftid s actor htok d hEnd hTok h0 h36
    have h := startVotingKind now ftok ftid { s with updatedAt := now } actor htok d hTok
    show (applyKind now ftok ftid { s with updatedAt := now }
      (Action.mk actor htok (ActionKind.start_voting d))).voting.status = "open"
    by_cases hd0 : d = 0
    · rw [h.2.1 hd0]
    · have h1 : 0 < d := lt_of_le_of_ne h0 (fun he => hd0 he.symm)
      rw [h.2.2.1 h1 h36]

/-- Ended variant of the example session. -/
def exS10 : SessionState := { exS with status := "ended" }

/-- Witness for C10: the ended example room still admits Cara and still
reopens voting under the host token. -/
theorem C10_witness :
    (applyAction 300 "f" "t" exS10
        (Action.mk none none (ActionKind.join "Cara" "voter"))).participants =
      setKey exS10.participants (sanitizeString "Cara" 50) ⟨"voter"⟩ ∧
    (applyAction 300 "f" "t" exS10
        (Action.mk none (some "tok") (ActionKind.start_voting 60))).voting.status = "open" := by
  constructor
  · exact C10_ended_not_frozen.1 300 "f" "t" exS10 none none "Cara" "voter" rfl rfl
      (by decide) (by decide) (by decide)
  · exact C10_ended_not_frozen.2 300 "f" "t" exS10 none (some "tok") 60 rfl (by decide)
      (by norm_num) (by norm_num)

theorem lookupA_append {α : Type} (l1 l2 : List (String × α)) (k : String) :
    lookupA (l1 ++ l2) k =
      (match lookupA l1 k with
       | some v => some v
       | none => lookupA l2 k) := by
  induction l1 with
  | nil => simp [lookupA]
  | cons p rest ih =>
      obtain ⟨k1, v1⟩ := p
      by_cases h : k1 = k
      · simp [lookupA, h]
      · simp [lookupA, h, ih]

theorem lookupA_formatDistribution_aux (v : String) (l : List (String × String))
    (acc : List (String × Nat)) :
    lookupA
        (l.foldl
          (fun dist p =>
            match lookupA dist p.2 with
            | some n => setKey dist p.2 (n + 1)
            | none => dist ++ [(p.2, 1)])
          acc) v =
      (match lookupA acc v with
       | some n => some (n + ((l.map Prod.snd).filter (fun w => w = v)).length)
       | none =>
          if ((l.map Prod.snd).filter (fun w => w = v)).length = 0 then none
          else some ((l.map Prod.snd).filter (fun w => w = v)).length) := by
  induction l generalizing acc with
  | nil =>
      rcases h : lookupA acc v with _ | n <;> simp [h]
  | cons p rest ih =>
      obtain ⟨k1, w⟩ := p
      rw [List.foldl_cons]
      by_cases hw : w = v
      · subst hw
        rcases h : lookupA acc w with _ | n
        · simp only [h]
          rw [ih]
          have h2 : lookupA (acc ++ [(w, 1)]) w = some 1 := by
            rw [lookupA_append, h]
            simp [lookupA]
          rw [h2]
          simp only [List.map_cons, List.filter_cons, decide_True, if_true]
          simp only [List.length_cons]
          rcases hr : ((rest.map Prod.snd).filter (fun x => x = w)).length with _ | m <;>
            simp [hr, Nat.add_comm]
        · simp only [h]
          rw [ih]
          rw [lookupA_setKey_self acc w (n + 1)]
          simp only [List.map_cons, List.filter_cons, decide_True, if_true]
          simp only [List.length_cons]
          simp only [Option.some.injEq]
          omega
      · have hwd : (decide (w = v)) = false := by simp [hw]
        rcases h : lookupA acc w with _ | n
        · simp only [h]
          rw [ih]
          have h2 : lookupA (acc ++ [(w, 1)]) v = lookupA acc v := by
            rw [lookupA_append]
            rcases hv2 : lookupA acc v with _ | m
            · simp [lookupA, fun he : w = v => hw he]
            · simp
          rw [h2]
          simp only [List.map_cons, List.filter_cons, hwd, Bool.false_eq_true, if_false]
        · simp only [h]
          rw [ih]
          rw [lookupA_setKey_ne acc w v (n + 1) (fun he => hw he.symm)]
          simp only [List.map_cons, List.filter_cons, hwd, Bool.false_eq_true, if_false]

theorem foldl_add_eq_sum (l : List ℚ) : l.foldl (· + ·) 0 = l.sum := by
  rw [List.sum_eq_foldl]

/-- C7.  `calculateStats` keeps exactly the values parseable as numbers
(among the deck tokens, all but `?` and `☕`), returns `(null, null)`
when none remain, and otherwise returns the mean rounded to 2 decimals
and the median of the ascending-sorted numeric values (middle value for
an odd count, rounded mean of the two central values for an even
count); the concrete votes `{A: 5, B: 8, C: ?}` give average 6.5,
median 6.5 and distribution `{5: 1, 8: 1, ?: 1}`, and
`formatDistribution` tallies exactly the occurring values, omitting
zero counts. -/
theorem C7_stats :
    (∀ votes : List (String × String),
      (votes.map Prod.snd).filterMap jsNumber = [] → calculateStats votes = (none, none)) ∧
    (∀ (votes : List (String × String)) (ns : List ℚ),
      (votes.map Prod.snd).filterMap jsNumber = ns → ¬ ns = [] →
      calculateStats votes =
        (some (toFixed2 (ns.sum / (ns.length : ℚ))),
         some
          (if (List.insertionSort (· ≤ ·) ns).length % 2 = 0 then
            toFixed2
              (((List.insertionSort (· ≤ ·) ns).getD
                  ((List.insertionSort (· ≤ ·) ns).length / 2 - 1) 0 +
                (List.insertionSort (· ≤ ·) ns).getD
                  ((List.insertionSort (· ≤ ·) ns).length / 2) 0) / 2)
          else
            (List.insertionSort (· ≤ ·) ns).getD
              ((List.insertionSort (· ≤ ·) ns).length / 2) 0))) ∧
    (∀ v ∈ deckValues, ((jsNumber v).isSome = true ↔ ¬ (v = "?" ∨ v = "☕"))) ∧
    calculateStats [("A", "5"), ("B", "8"), ("C", "?")] =
      (some (13 / 2 : ℚ), some (13 / 2 : ℚ)) ∧
    formatDistribution [("A", "5"), ("B", "8"), ("C", "?")] =
      [("5", 1), ("8", 1), ("?", 1)] ∧
    (∀ (votes : List (String × String)) (v : String),
      lookupA (formatDistribution votes) v =
        (if ((votes.map Prod.snd).filter (fun w => w = v)).length = 0 then none
         else some ((votes.map Prod.snd).filter (fun w => w = v)).length)) := by
  refine ⟨?_, ?_, ?_, ?_, ?_, ?_⟩
  · intro votes h
    simp [calculateStats, h]
  · intro votes ns h hne
    simp only [calculateStats, h, hne, if_false]
    rw [foldl_add_eq_sum]
  · intro v hv
    fin_cases hv <;> decide
  · have hfm : (([("A", "5"), ("B", "8"), ("C", "?")].map Prod.snd).filterMap jsNumber) =
        [(5 : ℚ), 8] := by rfl
    have hfix : toFixed2 ((13 : ℚ) / 2) = 13 / 2 := by
      rw [toFixed2]
      have h650 : (⌊(13 : ℚ) / 2 * 100 + 1 / 2⌋ : Int) = 650 := by
        rw [Int.floor_eq_iff]
        constructor <;> norm_num
      rw [h650]
      norm_num
    simp only [calculateStats, hfm]
    norm_num [List.insertionSort, List.orderedInsert, hfix]
    intro h
    simp at h
  · decide
  · intro votes v
    have h := lookupA_formatDistribution_aux v votes []
    rw [formatDistribution] at *
    rw [h]
    simp [lookupA]

/-- Witness for C7: a lone `?` vote yields `(null, null)`, the votes
`{A: 5, B: 8}` yield the rounded mean and even-count median of `[5, 8]`,
and `13` is a numeric deck token; plus a concrete distribution lookup. -/
theorem C7_witness :
    calculateStats [("A", "?")] = (none, none) ∧
    calculateStats [("A", "5"), ("B", "8")] =
      (some (toFixed2 (([5, 8] : List ℚ).sum / ((([5, 8] : List ℚ)).length : ℚ))),
       some
        (if (List.insertionSort (· ≤ ·) ([5, 8] : List ℚ)).length % 2 = 0 then
          toFixed2
            (((List.insertionSort (· ≤ ·) ([5, 8] : List ℚ)).getD
                ((List.insertionSort (· ≤ ·) ([5, 8] : List ℚ)).length / 2 - 1) 0 +
              (List.insertionSort (· ≤ ·) ([5, 8] : List ℚ)).getD
                ((List.insertionSort (· ≤ ·) ([5, 8] : List ℚ)).length / 2) 0) / 2)
        else
          (List.insertionSort (· ≤ ·) ([5, 8] : List ℚ)).getD
            ((List.insertionSort (· ≤ ·) ([5, 8] : List ℚ)).length / 2) 0)) ∧
    ((jsNumber "13").isSome = true ↔ ¬ ("13" = "?" ∨ "13" = "☕")) ∧
    lookupA (formatDistribution [("A", "5"), ("B", "8"), ("C", "?")]) "5" =
      (if (([("A", "5"), ("B", "8"), ("C", "?")].map Prod.snd).filter
            (fun w => w = "5")).length = 0 then none
       else some ((([("A", "5"), ("B", "8"), ("C", "?")].map Prod.snd).filter
            (fun w => w = "5")).length)) := by
  refine ⟨C7_stats.1 [("A", "?")] (by rfl),
    C7_stats.2.1 [("A", "5"), ("B", "8")] [5, 8] (by rfl) (by simp),
    C7_stats.2.2.1 "13" (by decide),
    C7_stats.2.2.2.2.2 [("A", "5"), ("B", "8"), ("C", "?")] "5"⟩

theorem findTask_id (l : List Task) (i : String) (t : Task)
    (h : findTask l i = some t) : t.id = i := by
  induction l with
  | nil => cases h
  | cons x rest ih =>
      by_cases hx : x.id = i
      · rw [findTask, if_pos hx] at h
        cases h
        exact hx
      · rw [findTask, if_neg hx] at h
        exact ih h

theorem map_updateFirstTask (F g : Task → Task) (l : List Task) (i : String)
    (t0 : Task) (hf : findTask l i = some t0) (he : F (g t0) = F t0) :
    (updateFirstTask l i g).map F = l.map F := by
  induction l with
  | nil => cases hf
  | cons t rest ih =>
      by_cases ht : t.id = i
      · rw [findTask, if_pos ht] at hf
        cases hf
        rw [updateFirstTask, if_pos ht]
        simp [he]
      · rw [findTask, if_neg ht] at hf
        rw [updateFirstTask, if_neg ht]
        simp [List.map_cons, ih hf]

theorem map_setKey_collapse {β : Type} (maskf : String × String → β) (n v2 : String)
    (hcol : ∀ x y : String, maskf (n, x) = maskf (n, y)) (l : List (String × String))
    (hc : containsKey l n = true) :
    (setKey l n v2).map maskf = l.map maskf := by
  induction l with
  | nil => simp [containsKey, lookupA] at hc
  | cons p rest ih =>
      obtain ⟨k, x⟩ := p
      by_cases hk : k = n
      · subst hk
        simp only [setKey, eq_self_iff_true, if_true, List.map_cons]
        rw [hcol v2 x]
      · have h2 : containsKey rest n = true := by
          simpa [containsKey, lookupA, hk] using hc
        simp [setKey, hk, List.map_cons, ih h2]

/-- C3.  For a task whose votes are masked by the sanitizer (round not
revealed, room not ended, and the task not in a shown configuration),
the projection for requester R keeps an entry's literal value iff the
entry's owner is R and replaces every other value with the opaque
marker `voted`; consequently two states differing only in another
participant's in-progress vote value (an overwrite of an existing entry
of the open active task by some n ≠ R) produce identical projections
for R; and a projection for an absent requester masks every vote
value. -/
theorem C3_sanitizer_masking :
    (∀ (s : SessionState) (R : String) (t : Task), t ∈ s.tasks →
      ¬ ((s.voting.status = "revealed" ∨ s.status = "ended") ∨
          (¬ s.activeTaskId = some t.id ∧ ¬ t.votes = []) ∨
          (s.activeTaskId = some t.id ∧ s.voting.status = "idle" ∧ ¬ t.votes = [])) →
      { t with votes := t.votes.map (fun p => if p.1 = R then p else (p.1, "voted")) } ∈
        (sanitizeSession s (some R)).tasks) ∧
    (∀ (s : SessionState) (R n v2 atid : String) (t0 : Task),
      s.voting.status = "open" → ¬ s.status = "ended" → s.activeTaskId = some atid →
      findTask s.tasks atid = some t0 → containsKey t0.votes n = true → ¬ n = R →
      sanitizeSession
          { s with tasks :=
              (updateFirstTask s.tasks atid
                (fun t => { t with votes := setKey t.votes n v2 })) } (some R) =
        sanitizeSession s (some R)) ∧
    (∀ (s : SessionState) (t : Task), t ∈ s.tasks →
      ¬ ((s.voting.status = "revealed" ∨ s.status = "ended") ∨
          (¬ s.activeTaskId = some t.id ∧ ¬ t.votes = []) ∨
          (s.activeTaskId = some t.id ∧ s.voting.status = "idle" ∧ ¬ t.votes = [])) →
      { t with votes := t.votes.map (fun p => (p.1, "voted")) } ∈
        (sanitizeSession s none).tasks) := by
  refine ⟨?_, ?_, ?_⟩
  · intro s R t ht hmask
    simp only [sanitizeSession]
    refine List.mem_map.mpr ⟨t, ht, ?_⟩
    congr 1
    apply List.map_congr_left
    intro p hp
    by_cases hpr : p.1 = R
    · simp [hpr]
    · have h1 : ¬ (some R : Option String) = some p.1 :=
        fun he => hpr (Option.some.inj he).symm
      simp [h1, hmask, hpr]
  · intro s R n v2 atid t0 hOpen hEnd hAct hFind hC hnR
    have hid : t0.id = atid := findTask_id s.tasks atid t0 hFind
    simp only [sanitizeSession]
    congr 1
    apply map_updateFirstTask _ _ s.tasks atid t0 hFind
    have hActive : s.activeTaskId = some t0.id := by rw [hid]; exact hAct
    simp only [hActive, hOpen]
    congr 1
    have h2 : ¬ R = n := fun he => hnR he.symm
    simp [hEnd]
    apply map_setKey_collapse _ n v2 ?_ t0.votes hC
    intro x y
    simp [h2]
  · intro s t ht hmask
    simp only [sanitizeSession]
    refine List.mem_map.mpr ⟨t, ht, ?_⟩
    congr 1
    apply List.map_congr_left
    intro p hp
    simp [hmask]

/-- The example session's single task. -/
def exT : Task := ⟨"t1", "Task", none, [("Hana", "5"), ("Ben", "8")], none⟩

/-- Witness for C3 on the example session (round open, votes
`{Hana: 5, Ben: 8}`): Hana sees her own `5` and Ben's vote masked;
overwriting Ben's in-progress vote with `21` leaves Hana's projection
unchanged; the absent requester sees both masked. -/
theorem C3_witness :
    ({ exT with
        votes := exT.votes.map (fun p => if p.1 = "Hana" then p else (p.1, "voted")) } ∈
      (sanitizeSession exS (some "Hana")).tasks) ∧
    sanitizeSession
        { exS with tasks :=
            (updateFirstTask exS.tasks "t1"
              (fun t => { t with votes := setKey t.votes "Ben" "21" })) } (some "Hana") =
      sanitizeSession exS (some "Hana") ∧
    ({ exT with votes := exT.votes.map (fun p => (p.1, "voted")) } ∈
      (sanitizeSession exS none).tasks) :=
  ⟨C3_sanitizer_masking.1 exS "Hana" exT (by decide) (by decide),
    C3_sanitizer_masking.2.1 exS "Hana" "Ben" "21" "t1" exT rfl (by decide) rfl rfl
      (by decide) (by decide),
    C3_sanitizer_masking.2.2 exS exT (by decide) (by decide)⟩

theorem containsKey_delKey_ne {α : Type} (l : List (String × α)) (k k2 : String)
    (h : ¬ k2 = k) (hc : containsKey l k2 = true) :
    containsKey (delKey l k) k2 = true := by
  simpa [containsKey, lookupA_delKey_ne l k k2 h] using hc

/-- States reachable from `createInitialSession` by any sequence of
reducer applications (with arbitrary timestamps and fresh tokens). -/
inductive Reachable : SessionState → Prop where
  | init (sessionId hostName sessionMode freshTok createdAtIso : String) (now : Int)
      (s : SessionState)
      (h : createInitialSession sessionId hostName sessionMode freshTok createdAtIso now
            = some s) :
      Reachable s
  | step (s : SessionState) (now : Int) (freshTok freshTaskId : String) (a : Action)
      (h : Reachable s) : Reachable (applyAction now freshTok freshTaskId s a)

theorem applyKind_preserves_host_mem (now : Int) (ftok ftid : String) (t : SessionState)
    (a : Action) (ih : containsKey t.participants t.host.name = true) :
    containsKey (applyKind now ftok ftid t a).participants
      (applyKind now ftok ftid t a).host.name = true := by
  obtain ⟨actor, htok, kind⟩ := a
  cases kind <;> simp only [applyKind] <;> (repeat' split) <;>
    first
      | (rename_i hreq hname
         exact containsKey_delKey_ne _ _ _ (fun he => hname he.symm) ih)
      | simp_all [containsKey_setKey, containsKey_delKey_ne]

/-- C9.  In every state reachable from `createInitialSession` by any
sequence of `applyAction` applications, the host's name is a key of the
participants map: the initial state makes the host a participant, kick
refuses the host's own name, and transfer_host only targets an existing
participant. -/
theorem C9_host_is_participant (s : SessionState) (h : Reachable s) :
    containsKey s.participants s.host.name = true := by
  induction h with
  | init sid hn sm ftok iso now s h =>
      rw [createInitialSession] at h
      by_cases hv : ¬ isValidName hn = true
      · simp [hv] at h
      · simp only [hv, if_false] at h
        cases h
        simp [containsKey, lookupA]
  | step s now ftok ftid a h ih =>
      exact applyKind_preserves_host_mem now ftok ftid { s with updatedAt := now } a ih

/-- A concrete initial session (the value `createInitialSession`
returns for host `Hana`). -/
def exInit : SessionState :=
  ⟨"s1", "2026-01-01", 100, ⟨"Hana", some "tok"⟩, "open", "active",
   [("Hana", ⟨"voter"⟩)], [], [], none, ⟨"idle", none⟩⟩

/-- Witness for C9: after Ben joins the freshly created session, the
host is still a participant. -/
theorem C9_witness :
    containsKey
      (applyAction 200 "f" "t" exInit
        (Action.mk none none (ActionKind.join "Ben" "voter"))).participants
      (applyAction 200 "f" "t" exInit
        (Action.mk none none (ActionKind.join "Ben" "voter"))).host.name = true :=
  C9_host_is_participant _
    (Reachable.step exInit 200 "f" "t" (Action.mk none none (ActionKind.join "Ben" "voter"))
      (Reachable.init "s1" "Hana" "open" "tok" "2026-01-01" 100 exInit (by decide)))

end PlanningPoker
